import Mathlib

/-!
Shallow embedding of the rate-limiting and request-gating middleware of the
mindbridge-nigeria repository, together with theorems settling the claims
about it.

Sources embedded:
* `src/src/lib/rate-limiter.ts` — class `RateLimiter` (`check`,
  `getClientIdentifier`) and the wrapper `withRateLimit`;
* `src/middleware.ts` — `getRateLimitKey`, `isRateLimited`, the route lists
  and the exported `middleware` function (rate-limit block, auth/role block,
  suspicious-query-parameter screening block).

Times are modelled as natural numbers of milliseconds (`Date.now()`); the
per-key stores are modelled as functions `String → Option entry`, updated
pointwise exactly where the TypeScript mutates its map/object.
-/

namespace MindBridge

/-! ### `src/src/lib/rate-limiter.ts` — the `RateLimiter` store and `check` -/

/-- One value of the `RateLimitStore` object: `{ count, resetTime }`. -/
structure RLEntry where
  count : Nat
  resetTime : Nat
deriving DecidableEq

/-- The private `store : RateLimitStore`, one optional entry per key. -/
def RLStore : Type := String → Option RLEntry

/-- The empty store (a fresh `RateLimiter` instance). -/
def RLStore.empty : RLStore := fun _ => none

/-- Pointwise update `this.store[identifier] = e`. -/
def RLStore.set (s : RLStore) (k : String) (e : RLEntry) : RLStore :=
  fun k' => if k' = k then some e else s k'

/-- The record returned by `RateLimiter.check`:
`{ allowed, remaining, resetTime }`.  `remaining` is an integer because the
TypeScript computes it as a plain number subtraction. -/
structure CheckResult where
  allowed : Bool
  remaining : Int
  resetTime : Nat
deriving DecidableEq

/-- `RateLimiter.check(identifier, limit, windowMs)` at clock value `now`,
returning the result record together with the store after the call.
Mirrors rate-limiter.ts lines 30–65:
* no entry, or `entry.resetTime < now` → fresh window `{count: 1,
  resetTime: now + windowMs}`, allowed, `remaining = limit - 1`;
* `entry.count >= limit` → denied, store untouched;
* otherwise `entry.count++`, allowed, `remaining = limit - entry.count`. -/
def check (s : RLStore) (identifier : String) (limit windowMs now : Nat) :
    CheckResult × RLStore :=
  match s identifier with
  | none =>
      (⟨true, (limit : Int) - 1, now + windowMs⟩,
       s.set identifier ⟨1, now + windowMs⟩)
  | some entry =>
      if entry.resetTime < now then
        (⟨true, (limit : Int) - 1, now + windowMs⟩,
         s.set identifier ⟨1, now + windowMs⟩)
      else if limit ≤ entry.count then
        (⟨false, 0, entry.resetTime⟩, s)
      else
        (⟨true, (limit : Int) - (entry.count + 1 : Nat), entry.resetTime⟩,
         s.set identifier ⟨entry.count + 1, entry.resetTime⟩)

/-- Run `check` over a list of request timestamps for one identifier,
collecting every result and the final store. -/
def runChecks (identifier : String) (limit windowMs : Nat) :
    RLStore → List Nat → List CheckResult × RLStore
  | s, [] => ([], s)
  | s, t :: ts =>
      let r := check s identifier limit windowMs t
      let rest := runChecks identifier limit windowMs r.2 ts
      (r.1 :: rest.1, rest.2)

/-! ### `src/middleware.ts` — the inline limiter -/

/-- One value of `rateLimitMap`: `{ count, lastRequest }`. -/
structure MWRecord where
  count : Nat
  lastRequest : Nat
deriving DecidableEq

/-- The module-level `rateLimitMap`. -/
def MWStore : Type := String → Option MWRecord

def MWStore.empty : MWStore := fun _ => none

def MWStore.set (s : MWStore) (k : String) (e : MWRecord) : MWStore :=
  fun k' => if k' = k then some e else s k'

/-- `const RATE_LIMIT_WINDOW = 60 * 1000`. -/
def RATE_LIMIT_WINDOW : Nat := 60 * 1000

/-- `const RATE_LIMIT_MAX_REQUESTS = 100`. -/
def RATE_LIMIT_MAX_REQUESTS : Nat := 100

/-- `isRateLimited(key)` at clock value `now` (middleware.ts lines 19–39),
returning the boolean (`true` = limited) and the map after the call.
`now - record.lastRequest` is JavaScript number subtraction; for the
comparison against `RATE_LIMIT_WINDOW` a negative difference and the truncated
natural difference `0` decide identically, so `Nat` subtraction is faithful. -/
def isRateLimited (m : MWStore) (key : String) (now : Nat) : Bool × MWStore :=
  match m key with
  | none => (false, m.set key ⟨1, now⟩)
  | some record =>
      if RATE_LIMIT_WINDOW < now - record.lastRequest then
        (false, m.set key ⟨1, now⟩)
      else
        (RATE_LIMIT_MAX_REQUESTS < record.count + 1,
         m.set key ⟨record.count + 1, now⟩)

/-- Run `isRateLimited` over a list of request timestamps for one key,
collecting each returned boolean and the final map. -/
def runMW (key : String) : MWStore → List Nat → List Bool × MWStore
  | m, [] => ([], m)
  | m, t :: ts =>
      let r := isRateLimited m key t
      let rest := runMW key r.2 ts
      (r.1 :: rest.1, rest.2)

/-! ### `src/middleware.ts` — suspicious-query-parameter screening

The three `suspiciousPatterns` regexes are embedded as executable matchers
over the character list of a parameter value; `regex.test(value)` holds iff
some substring of the value matches, which is the existential form below.
All three regexes carry the `i` flag, so letters are compared
case-insensitively. -/

/-- The SQL keywords of the first suspicious pattern
`(['"])(.*?)\1\s*(OR|AND|UNION|SELECT|DROP|INSERT|UPDATE|DELETE)\s`. -/
def sqlKeywords : List String :=
  ["OR", "AND", "UNION", "SELECT", "DROP", "INSERT", "UPDATE", "DELETE"]

/-- JavaScript regex `\s` on the ASCII range: space, tab, newline, carriage
return, vertical tab, form feed. -/
def isWsChar (c : Char) : Bool :=
  c == ' ' || c == '\t' || c == '\n' || c == '\r' ||
    c == Char.ofNat 11 || c == Char.ofNat 12

/-- Case-insensitive: the first list is matched against a prefix of the
second. -/
def matchCI : List Char → List Char → Bool
  | [], _ => true
  | _ :: _, [] => false
  | p :: ps, c :: cs => (p.toLower == c.toLower) && matchCI ps cs

/-- Some SQL keyword (case-insensitively) starts here, followed by a `\s`
character. -/
def kwThenWs (s : List Char) : Bool :=
  sqlKeywords.any fun kw =>
    matchCI kw.toList s &&
      match s.drop kw.toList.length with
      | c :: _ => isWsChar c
      | [] => false

/-- `\s*` then a keyword-then-whitespace, starting here. -/
def wsStarKw : List Char → Bool
  | [] => false
  | c :: cs => kwThenWs (c :: cs) || (isWsChar c && wsStarKw cs)

/-- After an opening quote `q`, the rest of `(['"])(.*?)\1\s*KW\s` matches:
some later position holds the closing `q` (the `.` between them excludes
newlines) followed by `\s*`, a keyword and whitespace. -/
def closeQuoteKw (q : Char) : List Char → Bool
  | [] => false
  | c :: cs => (c == q && wsStarKw cs) || (c != '\n' && closeQuoteKw q cs)

/-- The first suspicious pattern matches somewhere in the value: a quote
character, a matching closing quote, optional whitespace, an SQL keyword and
a whitespace character. -/
def sqlQuotePattern : List Char → Bool
  | [] => false
  | c :: cs =>
      ((c == Char.ofNat 39 || c == '"') && closeQuoteKw c cs) ||
        sqlQuotePattern cs

/-- Case-insensitive substring test (the alternatives of the second and
third patterns are all literal strings). -/
def containsCI (needle : String) : List Char → Bool
  | [] => needle.toList.isEmpty
  | c :: cs => matchCI needle.toList (c :: cs) || containsCI needle cs

/-- The second suspicious pattern `(\.\.\/|\.\.\\|%2e%2e%2f|%2e%2e%5c)/i`. -/
def traversalPattern (s : List Char) : Bool :=
  containsCI "../" s || containsCI "..\\" s ||
    containsCI "%2e%2e%2f" s || containsCI "%2e%2e%5c" s

/-- The third suspicious pattern
`(<script|javascript:|vbscript:|onload=|onerror=)/i`. -/
def scriptPattern (s : List Char) : Bool :=
  containsCI "<script" s || containsCI "javascript:" s ||
    containsCI "vbscript:" s || containsCI "onload=" s ||
    containsCI "onerror=" s

/-- A query-parameter value trips the screening loop iff one of the three
patterns matches it. -/
def isSuspiciousValue (v : String) : Bool :=
  sqlQuotePattern v.toList || traversalPattern v.toList || scriptPattern v.toList

/-! ### Client identifiers -/

/-- The three forwarding headers both key derivations read.  `none` means
the header is absent from the request. -/
structure ReqHeaders where
  xForwardedFor : Option String
  xRealIp : Option String
  cfConnectingIp : Option String
deriving DecidableEq

/-- JavaScript `a || b` on nullable strings: `a` unless it is `null` or the
empty string. -/
def jsOr (a b : Option String) : Option String :=
  match a with
  | some s => if s = "" then b else some s
  | none => b

/-- `RateLimiter.getClientIdentifier` (rate-limiter.ts lines 67–81):
`forwarded?.split(',')[0] || realIp || cfConnectingIp`, falling back to
`'unknown'` when falsy, then `.trim()`. -/
def getClientIdentifier (h : ReqHeaders) : String :=
  let fwdHead := h.xForwardedFor.map fun f => (f.splitOn ",").headD ""
  match jsOr (jsOr fwdHead h.xRealIp) h.cfConnectingIp with
  | none => "unknown"
  | some ip => if ip = "" then "unknown" else ip.trim

/-- `realIp || 'anonymous'` as used by `getRateLimitKey`. -/
def realIpOrAnonymous (h : ReqHeaders) : String :=
  match h.xRealIp with
  | some r => if r = "" then "anonymous" else r
  | none => "anonymous"

/-- `getRateLimitKey` (middleware.ts lines 12–17):
`forwarded ? forwarded.split(',')[0] : realIp || 'anonymous'` — the
`cf-connecting-ip` header is never consulted here. -/
def getRateLimitKey (h : ReqHeaders) : String :=
  match h.xForwardedFor with
  | some f => if f = "" then realIpOrAnonymous h else (f.splitOn ",").headD ""
  | none => realIpOrAnonymous h

/-! ### `src/middleware.ts` — the exported `middleware` function -/

/-- The decoded result of `getToken` when a token is present: the gate only
reads `token.role` (absent claims read as `undefined`, modelled `none`). -/
structure MWToken where
  role : Option String
deriving DecidableEq

/-- The parts of a request the gate inspects: the URL path, the forwarding
headers, the decoded query-parameter values, and the decoded auth token
(`none` = `getToken` returned `null`). -/
structure MWRequest where
  pathname : String
  headers : ReqHeaders
  queryValues : List String
  token : Option MWToken
deriving DecidableEq

/-- `const protectedRoutes` (middleware.ts lines 42–49). -/
def protectedRoutes : List String :=
  ["/dashboard", "/api/users/profile", "/api/admin", "/api/sessions",
   "/api/messages", "/api/mood-entries"]

/-- `const adminRoutes` (middleware.ts lines 52–55). -/
def adminRoutes : List String :=
  ["/api/admin", "/dashboard/admin"]

/-- `s.startsWith(p)` on strings, as a prefix test on character lists. -/
def strStarts (s p : String) : Bool :=
  p.toList.isPrefixOf s.toList

/-- The possible terminal decisions of the gate.  `pass` is the
`NextResponse.next()` pass-through to the real handler; the others carry
the HTTP statuses 429, 401, 403 and 400, plus the two page redirects. -/
inductive MWOutcome where
  | tooManyRequests
  | unauthorized
  | redirectLogin
  | forbidden
  | redirectDashboard
  | badRequest
  | pass
deriving DecidableEq

/-- The exported `middleware` function (middleware.ts lines 57–196) as a
decision on the request, the `rateLimitMap` and the clock.  The
security-header bookkeeping on the response carries no decision content and
is not modelled.  Order as in the source: the rate-limit block (only for
paths starting `/api/`, and `isRateLimited` updates the map even when it
allows), then the auth/role block for protected routes, then the
suspicious-query-parameter screening loop, then pass-through. -/
def middleware (req : MWRequest) (m : MWStore) (now : Nat) :
    MWOutcome × MWStore :=
  let isApi := strStarts req.pathname "/api/"
  let step1 := if isApi then isRateLimited m (getRateLimitKey req.headers) now
               else (false, m)
  if step1.1 then (.tooManyRequests, step1.2) else
  let m' := step1.2
  let isProt := protectedRoutes.any fun route => strStarts req.pathname route
  let isAdmin := adminRoutes.any fun route => strStarts req.pathname route
  let authOutcome : Option MWOutcome :=
    if isProt then
      match req.token with
      | none => some (if isApi then .unauthorized else .redirectLogin)
      | some tok =>
          if isAdmin && !(tok.role == some "admin") then
            some (if isApi then .forbidden else .redirectDashboard)
          else
            none
    else none
  match authOutcome with
  | some o => (o, m')
  | none =>
      if req.queryValues.any isSuspiciousValue then (.badRequest, m')
      else (.pass, m')

/-! ### `withRateLimit` (rate-limiter.ts lines 103–154) -/

/-- The two environment variables the wrapper consults. -/
structure Env where
  nodeEnv : Option String
  disableRateLimit : Option String
deriving DecidableEq

/-- An HTTP response as the wrapper observes it: a status code and a header
map (JSON bodies carry no decision content and are not modelled). -/
structure HttpResponse where
  status : Nat
  headers : List (String × String)
deriving DecidableEq

/-- `response.headers.set(k, v)`: replace any existing `k`, then add. -/
def setHeader (r : HttpResponse) (k v : String) : HttpResponse :=
  { r with headers := (r.headers.filter fun p => !(p.1 == k)) ++ [(k, v)] }

/-- `Math.ceil((resetTime - now) / 1000)` on the non-negative differences the
deny branch produces. -/
def retryAfterSecs (resetTime now : Nat) : Nat :=
  (resetTime - now + 999) / 1000

/-- The function returned by `withRateLimit(handler, {limit, windowMs,
message})`, applied to one request at clock value `now`.  `handlerResp` is
the response the wrapped handler would produce for this request.  The test
/ disable-flag bypass returns it untouched; otherwise the limiter runs on
the (development-adjusted) policy and either a 429 is produced or the
handler response is returned with the three `X-RateLimit-*` headers set. -/
def withRateLimit (env : Env) (limit windowMs : Nat)
    (handlerResp : HttpResponse) (h : ReqHeaders) (s : RLStore) (now : Nat) :
    HttpResponse × RLStore :=
  if env.nodeEnv == some "test" || env.disableRateLimit == some "true" then
    (handlerResp, s)
  else
    let devLimit := if env.nodeEnv == some "development"
                    then max (limit * 3) 200 else limit
    let devWindow := if env.nodeEnv == some "development"
                     then min windowMs 30000 else windowMs
    let identifier := getClientIdentifier h
    let res := check s identifier devLimit devWindow now
    if !res.1.allowed then
      ({ status := 429,
         headers := [("Content-Type", "application/json"),
                     ("X-RateLimit-Limit", toString devLimit),
                     ("X-RateLimit-Remaining", "0"),
                     ("X-RateLimit-Reset", toString res.1.resetTime),
                     ("Retry-After", toString (retryAfterSecs res.1.resetTime now))] },
       res.2)
    else
      (setHeader (setHeader (setHeader handlerResp
          "X-RateLimit-Limit" (toString devLimit))
          "X-RateLimit-Remaining" (toString res.1.remaining))
          "X-RateLimit-Reset" (toString res.1.resetTime),
       res.2)

end MindBridge

namespace MindBridge

/-! ### One-step characterizations of `check` and `isRateLimited` -/

theorem rl_set_self (s : RLStore) (k : String) (e : RLEntry) :
    (s.set k e) k = some e := by
  unfold RLStore.set
  simp

theorem mw_set_self (m : MWStore) (k : String) (e : MWRecord) :
    (m.set k e) k = some e := by
  unfold MWStore.set
  simp

theorem check_none {s : RLStore} {k : String} (L W now : Nat)
    (h : s k = none) :
    check s k L W now =
      (⟨true, (L : Int) - 1, now + W⟩, s.set k ⟨1, now + W⟩) := by
  unfold check
  rw [h]

theorem check_expired {s : RLStore} {k : String} {L W now : Nat} {e : RLEntry}
    (h : s k = some e) (hexp : e.resetTime < now) :
    check s k L W now =
      (⟨true, (L : Int) - 1, now + W⟩, s.set k ⟨1, now + W⟩) := by
  unfold check
  rw [h]
  simp [hexp]

theorem check_denied {s : RLStore} {k : String} {L W now : Nat} {e : RLEntry}
    (h : s k = some e) (hwin : ¬ e.resetTime < now) (hcap : L ≤ e.count) :
    check s k L W now = (⟨false, 0, e.resetTime⟩, s) := by
  unfold check
  rw [h]
  simp [hwin, hcap]

theorem check_increments {s : RLStore} {k : String} {L W now : Nat} {e : RLEntry}
    (h : s k = some e) (hwin : ¬ e.resetTime < now) (hlt : e.count < L) :
    check s k L W now =
      (⟨true, (L : Int) - (e.count + 1 : Nat), e.resetTime⟩,
       s.set k ⟨e.count + 1, e.resetTime⟩) := by
  unfold check
  rw [h]
  simp [hwin, Nat.not_le.mpr hlt]

theorem isRateLimited_none (m : MWStore) (key : String) (now : Nat)
    (h : m key = none) :
    isRateLimited m key now = (false, m.set key ⟨1, now⟩) := by
  unfold isRateLimited
  rw [h]

theorem isRateLimited_inWindow {m : MWStore} {key : String} {now c tl : Nat}
    (h : m key = some ⟨c, tl⟩) (hgap : ¬ RATE_LIMIT_WINDOW < now - tl) :
    isRateLimited m key now =
      (decide (RATE_LIMIT_MAX_REQUESTS < c + 1), m.set key ⟨c + 1, now⟩) := by
  unfold isRateLimited
  rw [h]
  simp [hgap]

/-! ### Closed forms over request sequences, within one window -/

/-- All calls at times not later than the stored reset `R` stay in the
window: call `j` (0-based) is allowed with `remaining = L - (c+j+1)` while
`c + j < L`, denied afterwards, and the stored count saturates at `L`. -/
theorem runChecks_closed (k : String) (L W : Nat) :
    ∀ (ts : List Nat) (s : RLStore) (c R : Nat),
      s k = some ⟨c, R⟩ → c ≤ L → (∀ t ∈ ts, t ≤ R) →
      (runChecks k L W s ts).1 =
        (List.range ts.length).map (fun j =>
          if c + j < L then ⟨true, (L : Int) - (c + j + 1 : Nat), R⟩
          else (⟨false, 0, R⟩ : CheckResult)) ∧
      (runChecks k L W s ts).2 k = some ⟨min (c + ts.length) L, R⟩
  | [], s, c, R, hs, hc, _ => by
      refine ⟨rfl, ?_⟩
      simpa [Nat.min_eq_left hc] using hs
  | t :: ts, s, c, R, hs, hc, hb => by
      have ht : t ≤ R := hb t (List.mem_cons_self t ts)
      have hwin : ¬ (⟨c, R⟩ : RLEntry).resetTime < t := Nat.not_lt.mpr ht
      have hbrest : ∀ u ∈ ts, u ≤ R := fun u hu => hb u (List.mem_cons_of_mem t hu)
      by_cases hlt : c < L
      · have hstep := check_increments (W := W) (e := ⟨c, R⟩) hs hwin hlt
        have ih := runChecks_closed k L W ts (s.set k ⟨c + 1, R⟩) (c + 1) R
          (rl_set_self s k ⟨c + 1, R⟩) hlt hbrest
        refine ⟨?_, ?_⟩
        · simp only [runChecks, hstep, List.length_cons, List.range_succ_eq_map,
            List.map_cons, List.map_map, ih.1]
          congr 1
          · simp [hlt]
          · refine List.map_congr_left ?_
            intro j _
            have hjj : c + Nat.succ j = c + 1 + j := by omega
            simp only [Function.comp_apply, hjj]
        · simp only [runChecks, hstep, List.length_cons, ih.2]
          have : c + 1 + ts.length = c + (ts.length + 1) := by omega
          rw [this]
      · have hcap : L ≤ c := Nat.le_of_not_lt hlt
        have hstep := check_denied (W := W) (e := ⟨c, R⟩) hs hwin hcap
        have ih := runChecks_closed k L W ts s c R hs hc hbrest
        refine ⟨?_, ?_⟩
        · simp only [runChecks, hstep, List.length_cons, List.range_succ_eq_map,
            List.map_cons, List.map_map, ih.1]
          congr 1
          · simp [hlt]
          · refine List.map_congr_left ?_
            intro j _
            have h1 : ¬ c + Nat.succ j < L := by omega
            have h2 : ¬ c + j < L := by omega
            simp only [Function.comp_apply, if_neg h1, if_neg h2]
        · simp only [runChecks, hstep, List.length_cons, ih.2]
          have h3 : min (c + ts.length) L = L := Nat.min_eq_right (by omega)
          have h4 : min (c + (ts.length + 1)) L = L := Nat.min_eq_right (by omega)
          rw [h3, h4]

/-- The middleware's counter, within a window of the base time: every call
increments, call `j` (0-based) is limited iff the count passes 100, and the
count never resets. -/
theorem runMW_closed (key : String) :
    ∀ (ts : List Nat) (m : MWStore) (c tl base : Nat),
      m key = some ⟨c, tl⟩ → base ≤ tl → tl ≤ base + RATE_LIMIT_WINDOW →
      (∀ t ∈ ts, base ≤ t ∧ t ≤ base + RATE_LIMIT_WINDOW) →
      (runMW key m ts).1 =
        (List.range ts.length).map
          (fun j => decide (RATE_LIMIT_MAX_REQUESTS < c + j + 1)) ∧
      ∃ tl2, (runMW key m ts).2 key = some ⟨c + ts.length, tl2⟩ ∧
        base ≤ tl2 ∧ tl2 ≤ base + RATE_LIMIT_WINDOW
  | [], m, c, tl, base, hm, hlo, hhi, _ => by
      exact ⟨rfl, tl, by simpa using hm, hlo, hhi⟩
  | t :: ts, m, c, tl, base, hm, hlo, hhi, hb => by
      have ht := hb t (List.mem_cons_self t ts)
      have hgap : ¬ RATE_LIMIT_WINDOW < t - tl := by
        unfold RATE_LIMIT_WINDOW at *
        omega
      have hstep := isRateLimited_inWindow hm hgap
      have hbrest : ∀ u ∈ ts, base ≤ u ∧ u ≤ base + RATE_LIMIT_WINDOW :=
        fun u hu => hb u (List.mem_cons_of_mem t hu)
      have ih := runMW_closed key ts (m.set key ⟨c + 1, t⟩) (c + 1) t base
        (mw_set_self m key ⟨c + 1, t⟩) ht.1 ht.2 hbrest
      refine ⟨?_, ?_⟩
      · simp only [runMW, hstep, List.length_cons, List.range_succ_eq_map,
          List.map_cons, List.map_map, ih.1]
        refine List.cons_eq_cons.mpr ⟨by norm_num, ?_⟩
        refine List.map_congr_left ?_
        intro j _
        simp only [Function.comp_apply]
        exact decide_eq_decide.mpr (by omega)
      · obtain ⟨tl2, hst, hlo2, hhi2⟩ := ih.2
        refine ⟨tl2, ?_, hlo2, hhi2⟩
        simp only [runMW, hstep, List.length_cons, hst]
        have : c + 1 + ts.length = c + (ts.length + 1) := by omega
        rw [this]

end MindBridge

namespace MindBridge

/-- C1: starting with no entry for `k`, with `L ≥ 1`, `W ≥ 1`, and all of the
`L + 1` calls at times not later than the first call plus `W` (the window of
the first call), the `i`-th call (1-based, `i ≤ L`) is allowed with
`remaining = L - i`, and the `(L+1)`-th call is denied. -/
theorem c1_fixed_window_counts (k : String) (L W : Nat) (hL : 1 ≤ L)
    (hW : 1 ≤ W) (s0 : RLStore) (h0 : s0 k = none) (t1 : Nat)
    (rest : List Nat) (hlen : rest.length = L)
    (hb : ∀ t ∈ rest, t ≤ t1 + W) :
    (runChecks k L W s0 (t1 :: rest)).1 =
      (List.range (L + 1)).map (fun i =>
        if i < L then ⟨true, (L : Int) - (i + 1 : Nat), t1 + W⟩
        else (⟨false, 0, t1 + W⟩ : CheckResult)) := by
  subst hlen
  have hfresh := check_none rest.length W t1 h0
  have hrest := runChecks_closed k rest.length W rest (s0.set k ⟨1, t1 + W⟩) 1
    (t1 + W) (rl_set_self s0 k ⟨1, t1 + W⟩) hL hb
  simp only [runChecks, hfresh, hrest.1]
  rw [List.range_succ_eq_map, List.map_cons, List.map_map]
  refine List.cons_eq_cons.mpr ⟨?_, ?_⟩
  · have h0L : 0 < rest.length := hL
    simp [h0L]
  · refine (List.map_congr_left ?_).symm
    intro j _
    simp only [Function.comp_apply]
    by_cases hj : 1 + j < rest.length
    · rw [if_pos (show Nat.succ j < rest.length by omega), if_pos hj]
      have hv : (Nat.succ j + 1 : Nat) = (1 + j + 1 : Nat) := by omega
      rw [hv]
    · rw [if_neg (show ¬ Nat.succ j < rest.length by omega), if_neg hj]

theorem c1_fixed_window_counts_witness :
    (1 ≤ 2 ∧ 1 ≤ 5 ∧ RLStore.empty "k" = none ∧
      ([1, 2] : List Nat).length = 2 ∧ ∀ t ∈ ([1, 2] : List Nat), t ≤ 0 + 5) ∧
    (runChecks "k" 2 5 RLStore.empty (0 :: [1, 2])).1 =
      (List.range (2 + 1)).map (fun i =>
        if i < 2 then ⟨true, (2 : Int) - (i + 1 : Nat), 0 + 5⟩
        else (⟨false, 0, 0 + 5⟩ : CheckResult)) :=
  ⟨⟨by decide, by decide, rfl, by decide, by decide⟩,
   c1_fixed_window_counts "k" 2 5 (by decide) (by decide) RLStore.empty rfl 0
     [1, 2] (by decide) (by decide)⟩

end MindBridge

namespace MindBridge

set_option maxRecDepth 10000 in
/-- C2 (counterexample): the middleware's rate-limit decision is not the
decision of `RateLimiter.check` with limit 100 and window 60000 on the same
key and timestamps: on 100 requests at t=0, one at t=30000 and one at
t=70000, the final request is limited by the middleware (`some true`: its
counter was refreshed at t=30000 and denials keep incrementing) but allowed
by `RateLimiter.check` (the fixed window ended at t=60000, so it opens a
fresh window), contradicting the claimed equality of decisions. -/
theorem c2_counterexample :
    (runMW "k" MWStore.empty
        (List.replicate 100 0 ++ [30000, 70000])).1.getLast? = some true ∧
    (runChecks "k" 100 60000 RLStore.empty
        (List.replicate 100 0 ++ [30000, 70000])).1.getLast? =
      some ⟨true, 99, 130000⟩ := by
  decide

/-- C2 (amended): restricted to sequences whose timestamps all lie in the
window opened by the first request, the two algorithms do agree. -/
theorem c2_amended_single_window (key : String) (t0 : Nat) (rest : List Nat)
    (hb : ∀ t ∈ rest, t0 ≤ t ∧ t ≤ t0 + RATE_LIMIT_WINDOW) :
    (runMW key MWStore.empty (t0 :: rest)).1.map not =
      (runChecks key RATE_LIMIT_MAX_REQUESTS RATE_LIMIT_WINDOW RLStore.empty
        (t0 :: rest)).1.map CheckResult.allowed := by
  have hmw0 := isRateLimited_none MWStore.empty key t0 rfl
  have hrl0 := check_none (s := RLStore.empty) (k := key)
    RATE_LIMIT_MAX_REQUESTS RATE_LIMIT_WINDOW t0 rfl
  have hmw := runMW_closed key rest (MWStore.empty.set key ⟨1, t0⟩) 1 t0 t0
    (mw_set_self MWStore.empty key ⟨1, t0⟩) le_rfl (by omega) hb
  have hrl := runChecks_closed key RATE_LIMIT_MAX_REQUESTS RATE_LIMIT_WINDOW rest
    (RLStore.empty.set key ⟨1, t0 + RATE_LIMIT_WINDOW⟩) 1 (t0 + RATE_LIMIT_WINDOW)
    (rl_set_self RLStore.empty key ⟨1, t0 + RATE_LIMIT_WINDOW⟩)
    (by norm_num [RATE_LIMIT_MAX_REQUESTS]) (fun t ht => (hb t ht).2)
  simp only [runMW, runChecks, hmw0, hrl0, hmw.1, hrl.1, List.map_cons,
    List.map_map]
  refine List.cons_eq_cons.mpr ⟨by simp, ?_⟩
  refine List.map_congr_left ?_
  intro j _
  simp only [Function.comp_apply]
  by_cases hj : 1 + j < RATE_LIMIT_MAX_REQUESTS
  · rw [if_pos hj]
    have hno : ¬ (RATE_LIMIT_MAX_REQUESTS < 1 + j + 1) := by
      unfold RATE_LIMIT_MAX_REQUESTS at *
      omega
    simp [hno]
  · rw [if_neg hj]
    have hyes : RATE_LIMIT_MAX_REQUESTS < 1 + j + 1 := by
      unfold RATE_LIMIT_MAX_REQUESTS at *
      omega
    simp [hyes]

theorem isRateLimited_count_bound (m : MWStore) (key : String) (t : Nat)
    (r : MWRecord) (hallow : (isRateLimited m key t).1 = false)
    (hr : (isRateLimited m key t).2 key = some r) :
    r.count ≤ RATE_LIMIT_MAX_REQUESTS := by
  unfold isRateLimited at hallow hr
  cases hm : m key with
  | none =>
      rw [hm] at hallow hr
      simp only [mw_set_self] at hr
      cases hr
      norm_num [RATE_LIMIT_MAX_REQUESTS]
  | some rec =>
      rw [hm] at hallow hr
      by_cases hgap : RATE_LIMIT_WINDOW < t - rec.lastRequest
      · simp only [if_pos hgap] at hallow hr
        simp only [mw_set_self] at hr
        cases hr
        norm_num [RATE_LIMIT_MAX_REQUESTS]
      · simp only [if_neg hgap] at hallow hr
        simp only [mw_set_self] at hr
        cases hr
        simp only [decide_eq_false_iff_not, Nat.not_lt] at hallow
        exact hallow

theorem c2_amended_witness :
    (∀ t ∈ ([10, 60000] : List Nat), 0 ≤ t ∧ t ≤ 0 + RATE_LIMIT_WINDOW) ∧
    (runMW "k" MWStore.empty (0 :: [10, 60000])).1.map not =
      (runChecks "k" RATE_LIMIT_MAX_REQUESTS RATE_LIMIT_WINDOW RLStore.empty
        (0 :: [10, 60000])).1.map CheckResult.allowed :=
  ⟨by decide, c2_amended_single_window "k" 0 [10, 60000] (by decide)⟩

/-- C3: invariants preserved by the rate-limit operations.  For
`RateLimiter.check`: an allowed request never leaves a stored count above
the limit (equivalently, a stored count above the limit can only be
observed at a denied request); mid-window no call changes the stored reset
time; an expired entry is only replaced by a fresh window whose reset time
is strictly later.  For the middleware counter `isRateLimited` (whose
records store no reset time): a non-denied request never leaves a stored
count above the 100-request limit. -/
theorem c3_store_invariants (s : RLStore) (k : String) (L W now : Nat)
    (hL : 1 ≤ L) :
    ((check s k L W now).1.allowed = true →
      ∀ e, (check s k L W now).2 k = some e → e.count ≤ L) ∧
    (∀ e, (check s k L W now).2 k = some e → L < e.count →
      (check s k L W now).1.allowed = false) ∧
    (∀ e, s k = some e → ¬ e.resetTime < now →
      ∃ e2, (check s k L W now).2 k = some e2 ∧ e2.resetTime = e.resetTime) ∧
    (∀ e, s k = some e → e.resetTime < now →
      (check s k L W now).2 k = some ⟨1, now + W⟩ ∧ e.resetTime < now + W) ∧
    (∀ (m : MWStore) (q : String) (t : Nat) (r : MWRecord),
      (isRateLimited m q t).1 = false → (isRateLimited m q t).2 q = some r →
      r.count ≤ RATE_LIMIT_MAX_REQUESTS) := by
  have hmw : ∀ (m : MWStore) (q : String) (t : Nat) (r : MWRecord),
      (isRateLimited m q t).1 = false → (isRateLimited m q t).2 q = some r →
      r.count ≤ RATE_LIMIT_MAX_REQUESTS :=
    fun m q t r h1 h2 => isRateLimited_count_bound m q t r h1 h2
  cases hs : s k with
  | none =>
      rw [check_none _ _ _ hs]
      refine ⟨?_, ?_, ?_, ?_, hmw⟩
      · intro _ e he
        simp only [rl_set_self] at he
        cases he
        exact hL
      · intro e he hlt
        simp only [rl_set_self] at he
        cases he
        exact absurd (show L < 1 from hlt) (by omega)
      · intro e he
        cases he
      · intro e he
        cases he
  | some e0 =>
      by_cases hexp : e0.resetTime < now
      · rw [check_expired hs hexp]
        refine ⟨?_, ?_, ?_, ?_, hmw⟩
        · intro _ e he
          simp only [rl_set_self] at he
          cases he
          exact hL
        · intro e he hlt
          simp only [rl_set_self] at he
          cases he
          exact absurd (show L < 1 from hlt) (by omega)
        · intro e he hwin
          cases he
          exact absurd hexp hwin
        · intro e he hlt
          cases he
          exact ⟨rl_set_self s k _, by omega⟩
      · by_cases hcap : L ≤ e0.count
        · rw [check_denied hs hexp hcap]
          refine ⟨?_, ?_, ?_, ?_, hmw⟩
          · intro hall
            simp at hall
          · intro e _ _
            rfl
          · intro e he _
            cases he
            exact ⟨e0, hs, rfl⟩
          · intro e he hlt
            cases he
            exact absurd hlt hexp
        · have hlt0 : e0.count < L := Nat.lt_of_not_le hcap
          rw [check_increments hs hexp hlt0]
          refine ⟨?_, ?_, ?_, ?_, hmw⟩
          · intro _ e he
            simp only [rl_set_self] at he
            cases he
            exact hlt0
          · intro e he hgt
            simp only [rl_set_self] at he
            cases he
            exact absurd (show L < e0.count + 1 from hgt) (by omega)
          · intro e he _
            cases he
            exact ⟨⟨e0.count + 1, e0.resetTime⟩, rl_set_self s k _, rfl⟩
          · intro e he hlt
            cases he
            exact absurd hlt hexp

set_option maxRecDepth 10000 in
theorem c3_store_invariants_witness :
    1 ≤ 1 ∧
    (((check RLStore.empty "k" 1 60000 0).1.allowed = true →
      ∀ e, (check RLStore.empty "k" 1 60000 0).2 "k" = some e → e.count ≤ 1) ∧
    (∀ e, (check RLStore.empty "k" 1 60000 0).2 "k" = some e → 1 < e.count →
      (check RLStore.empty "k" 1 60000 0).1.allowed = false) ∧
    (∀ e, RLStore.empty "k" = some e → ¬ e.resetTime < 0 →
      ∃ e2, (check RLStore.empty "k" 1 60000 0).2 "k" = some e2 ∧
        e2.resetTime = e.resetTime) ∧
    (∀ e, RLStore.empty "k" = some e → e.resetTime < 0 →
      (check RLStore.empty "k" 1 60000 0).2 "k" = some ⟨1, 0 + 60000⟩ ∧
        e.resetTime < 0 + 60000) ∧
    (∀ (m : MWStore) (q : String) (t : Nat) (r : MWRecord),
      (isRateLimited m q t).1 = false → (isRateLimited m q t).2 q = some r →
      r.count ≤ RATE_LIMIT_MAX_REQUESTS)) :=
  ⟨by decide, c3_store_invariants RLStore.empty "k" 1 60000 0 (by decide)⟩

set_option maxRecDepth 10000 in
/-- C4 (counterexample): in the middleware's limiter a denied request does
mutate the stored entry: after 100 requests at t=0 the key's record is
`{count := 100, lastRequest := 0}`; the 101st request at t=0 is denied
(`true`), yet the stored record changes to `{count := 101, lastRequest :=
0}` — the count is incremented on denial, contradicting the claim that a
denying check leaves the entry completely unchanged. -/
theorem c4_counterexample :
    ((runMW "k" MWStore.empty (List.replicate 100 0)).2) "k" = some ⟨100, 0⟩ ∧
    (isRateLimited ((runMW "k" MWStore.empty (List.replicate 100 0)).2)
        "k" 0).1 = true ∧
    (isRateLimited ((runMW "k" MWStore.empty (List.replicate 100 0)).2)
        "k" 0).2 "k" = some ⟨101, 0⟩ := by
  decide

/-- C4 (amended): for `RateLimiter.check` the claim holds — a denied call
returns the store completely unchanged. -/
theorem c4_amended_check_denial_pure (s : RLStore) (k : String) (L W now : Nat)
    (hdeny : (check s k L W now).1.allowed = false) :
    (check s k L W now).2 = s := by
  cases hs : s k with
  | none =>
      rw [check_none _ _ _ hs] at hdeny
      simp at hdeny
  | some e =>
      by_cases hexp : e.resetTime < now
      · rw [check_expired hs hexp] at hdeny
        simp at hdeny
      · by_cases hcap : L ≤ e.count
        · rw [check_denied hs hexp hcap]
        · rw [check_increments hs hexp (Nat.lt_of_not_le hcap)] at hdeny
          simp at hdeny

theorem c4_amended_witness :
    (check (RLStore.empty.set "k" ⟨5, 100⟩) "k" 5 60000 50).1.allowed = false ∧
    (check (RLStore.empty.set "k" ⟨5, 100⟩) "k" 5 60000 50).2 =
      RLStore.empty.set "k" ⟨5, 100⟩ :=
  ⟨by decide, c4_amended_check_denial_pure _ "k" 5 60000 50 (by decide)⟩

/-- C5 (counterexample): a request arriving exactly at the stored reset time
is NOT treated as starting a fresh window: with entry `{count := 10,
resetTime := 100}`, limit 10 and window 50, a call at `now = 100` is denied
(the claim predicts `allowed = true` with `remaining = 9`) and the entry
stays `{count := 10, resetTime := 100}` instead of being replaced by the
claimed fresh `{count := 1, resetTime := 150}`. -/
theorem c5_counterexample :
    (check (RLStore.empty.set "k" ⟨10, 100⟩) "k" 10 50 100).1 =
      ⟨false, 0, 100⟩ ∧
    (check (RLStore.empty.set "k" ⟨10, 100⟩) "k" 10 50 100).2 "k" =
      some ⟨10, 100⟩ := by
  decide

/-- C5 (amended): at `now = resetTime` exactly, `check` continues the old
window (the comparison is `entry.resetTime < now`): it denies if the count
has reached the limit, otherwise increments within the old window, keeping
the old reset time. -/
theorem c5_amended_boundary (s : RLStore) (k : String) (L W now : Nat)
    (e : RLEntry) (hs : s k = some e) (hnow : e.resetTime = now) :
    (L ≤ e.count → check s k L W now = (⟨false, 0, e.resetTime⟩, s)) ∧
    (e.count < L → check s k L W now =
      (⟨true, (L : Int) - (e.count + 1 : Nat), e.resetTime⟩,
       s.set k ⟨e.count + 1, e.resetTime⟩)) := by
  have hwin : ¬ e.resetTime < now := by omega
  exact ⟨fun h => check_denied hs hwin h, fun h => check_increments hs hwin h⟩

theorem c5_amended_witness :
    (RLStore.empty.set "k" ⟨3, 100⟩) "k" = some ⟨3, 100⟩ ∧
    check (RLStore.empty.set "k" ⟨3, 100⟩) "k" 10 50 100 =
      (⟨true, (10 : Int) - (3 + 1 : Nat), 100⟩,
       (RLStore.empty.set "k" ⟨3, 100⟩).set "k" ⟨4, 100⟩) :=
  ⟨by decide,
   (c5_amended_boundary (RLStore.empty.set "k" ⟨3, 100⟩) "k" 10 50 100 ⟨3, 100⟩
      (by decide) rfl).2 (by decide)⟩

end MindBridge

namespace MindBridge

/-- C6: evaluation of the screening on the spec's two vectors.  The benign
value "anxiety" passes, as claimed — but the SQL-injection vector
`'; DROP TABLE users; --` ALSO passes: none of the three suspicious
patterns matches it (the SQL pattern requires a closed pair of quotes
before the keyword, and the vector contains a single quote), so the gate
forwards the request instead of rejecting it with 400. -/
theorem c6_screening_vectors :
    isSuspiciousValue "anxiety" = false ∧
    isSuspiciousValue
      (String.mk (Char.ofNat 39 :: "; DROP TABLE users; --".toList)) = false ∧
    (middleware
        ⟨"/api/therapists", ⟨none, none, none⟩,
         [String.mk (Char.ofNat 39 :: "; DROP TABLE users; --".toList)], none⟩
        MWStore.empty 0).1 = MWOutcome.pass := by
  decide

set_option maxRecDepth 10000 in
/-- C7 (counterexample): the gate's checks run in the order rate limiting →
auth → screening, not screening first: a request to `/api/therapists`
carrying the suspicious query value `<script>alert(1)` whose anonymous
client has already exhausted its quota (100 prior requests at t=0) is
answered with the rate-limit rejection (429), not the screening rejection
(400). -/
theorem c7_counterexample :
    isSuspiciousValue "<script>alert(1)" = true ∧
    (middleware
        ⟨"/api/therapists", ⟨none, none, none⟩, ["<script>alert(1)"], none⟩
        ((runMW "anonymous" MWStore.empty (List.replicate 100 0)).2) 0).1 =
      MWOutcome.tooManyRequests := by
  decide

/-- C7 (amended): the rate limit check runs before the screening check: on
any API-path request whose key the limiter denies, the outcome is the 429
rejection even when a suspicious query value is present. -/
theorem c7_amended_rate_limit_first (req : MWRequest) (m : MWStore) (now : Nat)
    (hapi : strStarts req.pathname "/api/" = true)
    (hsusp : req.queryValues.any isSuspiciousValue = true)
    (hlim : (isRateLimited m (getRateLimitKey req.headers) now).1 = true) :
    (middleware req m now).1 = MWOutcome.tooManyRequests := by
  unfold middleware
  simp [hapi, hlim]

set_option maxRecDepth 10000 in
theorem c7_amended_witness :
    (strStarts "/api/therapists" "/api/" = true ∧
     (["<script>alert(1)"] : List String).any isSuspiciousValue = true ∧
     (isRateLimited ((runMW "anonymous" MWStore.empty (List.replicate 100 0)).2)
        (getRateLimitKey ⟨none, none, none⟩) 0).1 = true) ∧
    (middleware
        ⟨"/api/therapists", ⟨none, none, none⟩, ["<script>alert(1)"], none⟩
        ((runMW "anonymous" MWStore.empty (List.replicate 100 0)).2) 0).1 =
      MWOutcome.tooManyRequests :=
  ⟨⟨by decide, by decide, by decide⟩,
   c7_amended_rate_limit_first
     ⟨"/api/therapists", ⟨none, none, none⟩, ["<script>alert(1)"], none⟩
     ((runMW "anonymous" MWStore.empty (List.replicate 100 0)).2) 0
     (by decide) (by decide) (by decide)⟩

theorem strStarts_mono {s p q : String} (hq : strStarts p q = true)
    (hp : strStarts s p = true) : strStarts s q = true := by
  unfold strStarts at *
  rw [List.isPrefixOf_iff_prefix] at hq hp ⊢
  exact hq.trans hp

theorem adminApiRoute_protected {p : String}
    (h : strStarts p "/api/admin" = true) :
    (protectedRoutes.any fun route => strStarts p route) = true :=
  List.any_eq_true.mpr ⟨"/api/admin", by decide, h⟩

theorem adminApiRoute_admin {p : String}
    (h : strStarts p "/api/admin" = true) :
    (adminRoutes.any fun route => strStarts p route) = true :=
  List.any_eq_true.mpr ⟨"/api/admin", by decide, h⟩

/-- C8: on an admin API route (path starting `/api/admin`), with no
suspicious query values and the limiter allowing the request: no token →
401 (`unauthorized`); a token whose role is not `admin` → 403
(`forbidden`); a token with role `admin` → pass-through to the handler. -/
theorem c8_admin_auth_gate (req : MWRequest) (m : MWStore) (now : Nat)
    (hadmin : strStarts req.pathname "/api/admin" = true)
    (hclean : req.queryValues.any isSuspiciousValue = false)
    (hnotlim : (isRateLimited m (getRateLimitKey req.headers) now).1 = false) :
    (middleware req m now).1 =
      match req.token with
      | none => MWOutcome.unauthorized
      | some tok =>
          if tok.role = some "admin" then MWOutcome.pass
          else MWOutcome.forbidden := by
  have hapi : strStarts req.pathname "/api/" = true :=
    strStarts_mono (by decide) hadmin
  have hprot := adminApiRoute_protected hadmin
  have hadm := adminApiRoute_admin hadmin
  unfold middleware
  simp only [hapi, if_true, hnotlim, Bool.false_eq_true, if_false, hprot, hadm]
  cases req.token with
  | none => simp
  | some tok =>
      by_cases hrole : tok.role = some "admin"
      · simp [hrole, hclean]
      · simp [hrole, hclean]

theorem c8_admin_auth_gate_witness :
    (strStarts "/api/admin/users" "/api/admin" = true ∧
     ([] : List String).any isSuspiciousValue = false ∧
     (isRateLimited MWStore.empty (getRateLimitKey ⟨none, none, none⟩) 0).1 =
       false) ∧
    (middleware
        ⟨"/api/admin/users", ⟨none, none, none⟩, [], some ⟨some "admin"⟩⟩
        MWStore.empty 0).1 =
      match (some ⟨some "admin"⟩ : Option MWToken) with
      | none => MWOutcome.unauthorized
      | some tok =>
          if tok.role = some "admin" then MWOutcome.pass
          else MWOutcome.forbidden :=
  ⟨⟨by decide, by decide, by decide⟩,
   c8_admin_auth_gate
     ⟨"/api/admin/users", ⟨none, none, none⟩, [], some ⟨some "admin"⟩⟩
     MWStore.empty 0 (by decide) (by decide) (by decide)⟩

/-- C9: with `NODE_ENV = 'test'` or `DISABLE_RATE_LIMIT = 'true'`, the
function returned by `withRateLimit` returns the wrapped handler's response
untouched and the store unchanged: no rate-limit state is read or written,
no 429 is produced, and no `X-RateLimit-*` header is attached. -/
theorem c9_env_bypass (env : Env) (limit windowMs : Nat)
    (handlerResp : HttpResponse) (h : ReqHeaders) (s : RLStore) (now : Nat)
    (henv : env.nodeEnv = some "test" ∨ env.disableRateLimit = some "true") :
    withRateLimit env limit windowMs handlerResp h s now = (handlerResp, s) := by
  unfold withRateLimit
  rcases henv with h1 | h1 <;> simp [h1]

theorem c9_env_bypass_witness :
    ((⟨some "test", none⟩ : Env).nodeEnv = some "test" ∨
     (⟨some "test", none⟩ : Env).disableRateLimit = some "true") ∧
    withRateLimit ⟨some "test", none⟩ 10 60000 ⟨200, []⟩ ⟨none, none, none⟩
      RLStore.empty 0 = (⟨200, []⟩, RLStore.empty) :=
  ⟨Or.inl rfl,
   c9_env_bypass ⟨some "test", none⟩ 10 60000 ⟨200, []⟩ ⟨none, none, none⟩
     RLStore.empty 0 (Or.inl rfl)⟩

/-- C10: a request carrying none of the headers `x-forwarded-for`,
`x-real-ip` and `cf-connecting-ip` is mapped to the constant key
`'unknown'` by `RateLimiter.getClientIdentifier` and to `'anonymous'` by
`getRateLimitKey`, so all such requests draw down one shared counter. -/
theorem c10_anonymous_shared_bucket (h : ReqHeaders)
    (h1 : h.xForwardedFor = none) (h2 : h.xRealIp = none)
    (h3 : h.cfConnectingIp = none) :
    getClientIdentifier h = "unknown" ∧ getRateLimitKey h = "anonymous" := by
  obtain ⟨f, r, c⟩ := h
  simp only at h1 h2 h3
  subst h1
  subst h2
  subst h3
  exact ⟨rfl, rfl⟩

theorem c10_anonymous_shared_bucket_witness :
    ((⟨none, none, none⟩ : ReqHeaders).xForwardedFor = none ∧
     (⟨none, none, none⟩ : ReqHeaders).xRealIp = none ∧
     (⟨none, none, none⟩ : ReqHeaders).cfConnectingIp = none) ∧
    (getClientIdentifier ⟨none, none, none⟩ = "unknown" ∧
     getRateLimitKey ⟨none, none, none⟩ = "anonymous") :=
  ⟨⟨rfl, rfl, rfl⟩, c10_anonymous_shared_bucket ⟨none, none, none⟩ rfl rfl rfl⟩

end MindBridge
